import Mathlib

/-!
Shallow embedding of the MiltonTV backend (src/backend/server.py).

Conventions of the embedding:
* Python floats are modelled as rationals.
* Wall-clock instants (datetime.utcnow, cache insertion times) are modelled as
  integers counting seconds; `cached_at` and cache entries carry such instants.
* The Mongo video collection is a list of records; `update_one` with the
  upsert flag replaces the first record matching the (videoId, stockTicker)
  filter, else appends.
* The two external providers (YouTube search plus statistics, Finnhub quote)
  and the ISO-8601 date parser are parameters of the operations: provider data
  is a function of the request, and a parse either fails or yields an age in
  days relative to the current instant.
* A raised Python exception is an `Except.error` carrying the exception kind;
  the try/except blocks of the source are modelled by explicit matches.
-/

/-- Kinds of exception observable in the source: an HTTPException carrying a
status code, a googleapiclient HttpError, or any other exception. The source
catch clauses distinguish exactly these. -/
inductive PyExc where
  | httpException (status : Nat)
  | httpError
  | other
deriving DecidableEq

/-- Outcome of parsing a `publishedAt` value, as seen by
`calculate_video_quality_score`: the field may be missing or empty (falsy in
the `if published:` test), may make `datetime.fromisoformat` raise, or may
parse, in which case `(datetime.now(tz) - pub_date).days` is an integer,
negative when the publish date lies in the future. -/
inductive PubDate where
  | absent
  | unparseable
  | parsed (days_old : Int)
deriving DecidableEq

/-- Python `round(q, 2)` at integer position: round to nearest, ties to even
(banker rounding), mirrored on rationals. -/
def roundHalfEven (q : ℚ) : ℤ :=
  if q - ⌊q⌋ < 1/2 then ⌊q⌋
  else if 1/2 < q - ⌊q⌋ then ⌊q⌋ + 1
  else if 2 ∣ ⌊q⌋ then ⌊q⌋ else ⌊q⌋ + 1

/-- Python `round(q, 2)`. -/
def round2 (q : ℚ) : ℚ := (roundHalfEven (q * 100) : ℚ) / 100

/-- `view_score = min(views / 100000, 1.0) * 0.5` (line 160). -/
def view_score (views : Int) : ℚ := min ((views : ℚ) / 100000) 1 * (1/2)

/-- `engagement_score = min((likes + comments) / 10000, 1.0) * 0.3` (line 161). -/
def engagement_score (likes comments : Int) : ℚ :=
  min (((likes : ℚ) + (comments : ℚ)) / 10000) 1 * (3/10)

/-- `calculate_video_quality_score` (lines 152-175). The whole body sits in a
try/except returning 0.0 on any exception; the only raising step for integer
counts is `datetime.fromisoformat` on a present but unparseable date, so the
`.unparseable` branch yields 0. An absent or empty date keeps the base
recency score 0.2; a parsed date gives `max(0.2 - (days_old/365)*0.2, 0)`,
where `days_old` may be negative for future dates. -/
def calculate_video_quality_score (views likes comments : Int)
    (publishedAt : PubDate) : ℚ :=
  match publishedAt with
  | .unparseable => 0
  | .absent => round2 (view_score views + engagement_score likes comments + 1/5)
  | .parsed days_old =>
      round2 (view_score views + engagement_score likes comments
        + max (1/5 - ((days_old : ℚ) / 365) * (1/5)) 0)

/-- Python `s.lower()`. -/
def pyLower (s : String) : String := ⟨s.data.map Char.toLower⟩

/-- Python `s.upper()`. -/
def pyUpper (s : String) : String := ⟨s.data.map Char.toUpper⟩

/-- Does `hay` start with `needle` (character-wise)? -/
def startsWithList : List Char → List Char → Bool
  | [], _ => true
  | _ :: _, [] => false
  | n :: ns, h :: hs => n == h && startsWithList ns hs

/-- Does the haystack contain `needle` as a contiguous run? -/
def containsSublist (needle : List Char) : List Char → Bool
  | [] => startsWithList needle []
  | h :: hs => startsWithList needle (h :: hs) || containsSublist needle hs

/-- Python `needle in hay` on strings (substring containment). -/
def strContains (hay needle : String) : Bool := containsSublist needle.data hay.data

/-- `determine_trust_tier` (lines 178-197): keyword match on the lowercased
channel title, checked in priority order with first match winning. -/
def determine_trust_tier (channel_title : String) : String :=
  let channel_lower := pyLower channel_title
  if ["official", "investor relations", "ir"].any
      (fun word => strContains channel_lower word) then "Official Company"
  else if ["bloomberg", "cnbc", "reuters", "financial times",
      "wall street journal", "marketwatch", "seeking alpha", "yahoo finance",
      "the motley fool"].any
      (fun outlet => strContains channel_lower outlet) then "Professional News"
  else if ["cfa", "analyst", "investing", "finance"].any
      (fun keyword => strContains channel_lower keyword) then "Vetted Expert"
  else "Community"

/-- A stock_channels document (the fields `fetch_and_cache_youtube_videos`
reads; `channelNumber` and `created_at` play no role in the claims). -/
structure StockChannel where
  ticker : String
  companyName : String
deriving DecidableEq

/-- The snippet part of a YouTube videos response item. -/
structure Snippet where
  title : String
  description : String
  thumbnailUrl : String
  publishedAt : String
  channelTitle : Option String
deriving DecidableEq

/-- The statistics part of a YouTube videos response item, after the `int()`
conversions with default 0 for missing keys. -/
structure Stats where
  viewCount : Int
  likeCount : Int
  commentCount : Int
deriving DecidableEq

/-- One item of the batched `youtube.videos().list` response. -/
structure ProviderItem where
  id : String
  snippet : Snippet
  stats : Stats
deriving DecidableEq

/-- A videos-collection document (the Video model fields the claims touch;
the uuid `id` field and the never-set `duration` field are omitted). -/
structure VideoRec where
  videoId : String
  title : String
  description : String
  thumbnail : String
  source : String
  trustTier : String
  stockTicker : String
  publishedAt : String
  channelTitle : String
  viewCount : Int
  qualityScore : ℚ
  cached_at : Int
deriving DecidableEq

/-- Construction of a Video from one response item (lines 280-302). `parse`
models `datetime.fromisoformat` relative to the current instant `now`, which
also becomes the `cached_at` default of the freshly built record. -/
def mkVideo (ticker : String) (parse : String → PubDate) (now : Int)
    (item : ProviderItem) : VideoRec :=
  { videoId := item.id
    title := item.snippet.title
    description := item.snippet.description
    thumbnail := item.snippet.thumbnailUrl
    source := "YouTube"
    trustTier := determine_trust_tier (item.snippet.channelTitle.getD "")
    stockTicker := ticker
    publishedAt := item.snippet.publishedAt
    channelTitle := item.snippet.channelTitle.getD ""
    viewCount := item.stats.viewCount
    qualityScore := calculate_video_quality_score item.stats.viewCount
      item.stats.likeCount item.stats.commentCount
      (parse item.snippet.publishedAt)
    cached_at := now }

/-- `db.videos.update_one({videoId, stockTicker}, {$set: video.dict()},
upsert=True)` (lines 308-312): replace the first document matching the
(videoId, stockTicker) filter with the new record, or insert it. -/
def update_one (store : List VideoRec) (v : VideoRec) : List VideoRec :=
  match store with
  | [] => [v]
  | r :: rs =>
      if r.videoId == v.videoId && r.stockTicker == v.stockTicker then v :: rs
      else r :: update_one rs v

/-- Result of a call to `fetch_and_cache_youtube_videos`: the returned value or
raised exception, the videos collection afterwards, and how many YouTube API
calls were issued. -/
structure FetchOutcome where
  result : Except PyExc (List VideoRec)
  store : List VideoRec
  providerCalls : Nat

/-- The try-block body of `fetch_and_cache_youtube_videos` (lines 247-314).
An unknown ticker raises HTTPException(404) (line 251) before any YouTube
call or upsert. Otherwise the search call yields video ids, the batched
videos call yields items, and each built Video is upserted in order. -/
def fetch_body (registry : List StockChannel)
    (ytSearch : String → Nat → List String)
    (ytVideos : List String → List ProviderItem)
    (parse : String → PubDate) (now : Int) (store : List VideoRec)
    (ticker : String) (max_results : Nat) : FetchOutcome :=
  match registry.find? (fun c => c.ticker == ticker) with
  | none => ⟨.error (.httpException 404), store, 0⟩
  | some channel =>
      let search_query := channel.companyName ++ " " ++ ticker
        ++ " stock analysis news"
      let video_ids := ytSearch search_query max_results
      let items := ytVideos video_ids
      let videos := items.map (mkVideo ticker parse now)
      ⟨.ok videos, videos.foldl update_one store, 2⟩

/-- `fetch_and_cache_youtube_videos` (lines 245-320) with its exception
handlers. `except HttpError` re-raises as HTTPException(500); the blanket
`except Exception` also re-raises as HTTPException(500) — and since the
function has no `except HTTPException: raise` clause, this blanket handler
catches the deliberate 404 of line 251 as well and demotes it to a 500. -/
def fetch_and_cache_youtube_videos (registry : List StockChannel)
    (ytSearch : String → Nat → List String)
    (ytVideos : List String → List ProviderItem)
    (parse : String → PubDate) (now : Int) (store : List VideoRec)
    (ticker : String) (max_results : Nat) : FetchOutcome :=
  let b := fetch_body registry ytSearch ytVideos parse now store ticker max_results
  match b.result with
  | .ok videos => ⟨.ok videos, b.store, b.providerCalls⟩
  | .error .httpError => ⟨.error (.httpException 500), b.store, b.providerCalls⟩
  | .error _ => ⟨.error (.httpException 500), b.store, b.providerCalls⟩

/-- The Mongo query of `get_channel_videos` (lines 440-444): same ticker,
`cached_at` within the last hour, and — when a truthy trust_tier argument is
given — matching trustTier. Note that the trust-tier condition is added to
the query before the below-threshold check. -/
def video_query (tickerU : String) (now : Int) (trust_tier : Option String)
    (v : VideoRec) : Bool :=
  v.stockTicker == tickerU && decide (now - 3600 ≤ v.cached_at) &&
    match trust_tier with
    | none => true
    | some tt => if tt == "" then true else v.trustTier == tt

/-- Stable insertion into a list sorted by `le`: the inserted element goes
after every element it ties with, preserving original order among equals,
as Python list.sort does. -/
def insertVid (le : VideoRec → VideoRec → Bool) (v : VideoRec) :
    List VideoRec → List VideoRec
  | [] => [v]
  | w :: ws => if le w v then w :: insertVid le v ws else v :: w :: ws

/-- Stable sort by `le` (insertion sort: a stable sort, like the Timsort the
source relies on). -/
def sortStable (le : VideoRec → VideoRec → Bool)
    (l : List VideoRec) : List VideoRec :=
  l.foldr (insertVid le) []

/-- The sort step of `get_channel_videos` (lines 456-461): a stable sort,
descending in the selected key (`reverse=True`); any other sort_by string
leaves the list untouched (the route regex admits only the three listed
values). -/
def sort_videos (sort_by : String) (l : List VideoRec) : List VideoRec :=
  if sort_by == "quality" then
    sortStable (fun a b => decide (b.qualityScore ≤ a.qualityScore)) l
  else if sort_by == "date" then
    sortStable (fun a b => decide (b.publishedAt ≤ a.publishedAt)) l
  else if sort_by == "views" then
    sortStable (fun a b => decide (b.viewCount ≤ a.viewCount)) l
  else l

/-- The paginated response shape (lines 469-475). -/
structure PagedResult where
  items : List VideoRec
  total : Nat
  page : Nat
  page_size : Nat
  total_pages : Nat
deriving DecidableEq

/-- The pagination step (lines 463-475): Python slice
`cached_videos[(page-1)*page_size : (page-1)*page_size + page_size]` plus the
`(total + page_size - 1) // page_size` page count. -/
def paginate (l : List VideoRec) (page page_size : Nat) : PagedResult :=
  { items := (l.drop ((page - 1) * page_size)).take page_size
    total := l.length
    page := page
    page_size := page_size
    total_pages := (l.length + page_size - 1) / page_size }

/-- Result of a call to `get_channel_videos`: response or raised exception,
the videos collection afterwards, whether the refetch fired, and the number
of YouTube API calls issued. -/
structure ListOutcome where
  result : Except PyExc PagedResult
  store : List VideoRec
  fetchTriggered : Bool
  providerCalls : Nat

/-- `db.videos.find(query).to_list(1000)` (lines 447 and 453): the documents
matching the freshness query, loaded 1000 at most. -/
def fresh_query_hits (store : List VideoRec) (tickerU : String) (now : Int)
    (trust_tier : Option String) : List VideoRec :=
  (store.filter (video_query tickerU now trust_tier)).take 1000

/-- `get_channel_videos` (lines 425-478). The ticker is uppercased; the
freshness query (with the trust-tier condition already in it) is loaded with
`to_list(1000)`; when fewer than 5 documents come back, the fetch runs with
max_results 20 and the same query is re-loaded. An exception out of the
fetch is caught by the blanket `except Exception` and surfaces as a 500. -/
def get_channel_videos (registry : List StockChannel)
    (ytSearch : String → Nat → List String)
    (ytVideos : List String → List ProviderItem)
    (parse : String → PubDate) (now : Int) (store : List VideoRec)
    (ticker : String) (page page_size : Nat) (trust_tier : Option String)
    (sort_by : String) : ListOutcome :=
  if (fresh_query_hits store (pyUpper ticker) now trust_tier).length < 5 then
    match (fetch_and_cache_youtube_videos registry ytSearch ytVideos parse
        now store (pyUpper ticker) 20).result with
    | .error _ =>
        ⟨.error (.httpException 500),
          (fetch_and_cache_youtube_videos registry ytSearch ytVideos parse
            now store (pyUpper ticker) 20).store, true,
          (fetch_and_cache_youtube_videos registry ytSearch ytVideos parse
            now store (pyUpper ticker) 20).providerCalls⟩
    | .ok _ =>
        ⟨.ok (paginate (sort_videos sort_by
            (fresh_query_hits (fetch_and_cache_youtube_videos registry
              ytSearch ytVideos parse now store (pyUpper ticker) 20).store
              (pyUpper ticker) now trust_tier)) page page_size),
          (fetch_and_cache_youtube_videos registry ytSearch ytVideos parse
            now store (pyUpper ticker) 20).store, true,
          (fetch_and_cache_youtube_videos registry ytSearch ytVideos parse
            now store (pyUpper ticker) 20).providerCalls⟩
  else
    ⟨.ok (paginate (sort_videos sort_by
        (fresh_query_hits store (pyUpper ticker) now trust_tier))
      page page_size), store, false, 0⟩

/-- A Finnhub quote response body (the keys read at lines 400-411); `none`
stands for a falsy (absent or empty) response. -/
structure Quote where
  c : ℚ
  d : ℚ
  dp : ℚ
  h : ℚ
  l : ℚ
  o : ℚ
  pc : ℚ
deriving DecidableEq

/-- The StockData model (lines 77-86); `openPrice` renders the source field
`open`, which is a reserved word here. -/
structure StockData where
  ticker : String
  currentPrice : ℚ
  change : ℚ
  percentChange : ℚ
  high : ℚ
  low : ℚ
  openPrice : ℚ
  previousClose : ℚ
  timestamp : Int
deriving DecidableEq

/-- One entry of the TTLCache (maxsize 100, ttl 30 seconds): value plus
insertion instant. An entry is live while `now < insertedAt + 30`. -/
structure CacheEntry where
  key : String
  data : StockData
  insertedAt : Int
deriving DecidableEq

/-- TTLCache lookup: `ticker in stock_cache` / `stock_cache[ticker]` — an
expired entry counts as absent. -/
def cache_get (cache : List CacheEntry) (now : Int) (k : String) :
    Option StockData :=
  (cache.find? (fun e => e.key == k && decide (now < e.insertedAt + 30))).map
    (fun e => e.data)

/-- TTLCache store `stock_cache[ticker] = stock_data`: drop expired entries,
overwrite the key, evict oldest entries beyond the capacity of 100, append.
The claims under proof do not depend on the eviction order. -/
def cache_set (cache : List CacheEntry) (now : Int) (k : String)
    (d : StockData) : List CacheEntry :=
  let live := cache.filter (fun e => decide (now < e.insertedAt + 30))
  let removed := live.filter (fun e => !(e.key == k))
  let trimmed := if 100 ≤ removed.length
    then removed.drop (removed.length - 99) else removed
  trimmed ++ [⟨k, d, now⟩]

/-- Result of a call to `get_stock_data`: response or raised exception, the
quote cache afterwards, and the number of Finnhub calls issued. -/
structure StockOutcome where
  result : Except PyExc StockData
  cache : List CacheEntry
  providerCalls : Nat

/-- `get_stock_data` (lines 385-422). Cache hit: return the cached value with
no Finnhub call. Miss: call Finnhub; a falsy quote or a zero `c` raises
HTTPException(404) — and this endpoint does have `except HTTPException:
raise`, so the 404 survives — and nothing is cached; otherwise the built
StockData is cached and returned. -/
def get_stock_data (quoteOf : String → Option Quote)
    (cache : List CacheEntry) (now : Int) (ticker : String) : StockOutcome :=
  match cache_get cache now (pyUpper ticker) with
  | some cachedData => ⟨.ok cachedData, cache, 0⟩
  | none =>
      match quoteOf (pyUpper ticker) with
      | none => ⟨.error (.httpException 404), cache, 1⟩
      | some q =>
          if q.c = 0 then ⟨.error (.httpException 404), cache, 1⟩
          else
            let sd : StockData :=
              ⟨pyUpper ticker, q.c, q.d, q.dp, q.h, q.l, q.o, q.pc, now⟩
            ⟨.ok sd, cache_set cache now (pyUpper ticker) sd, 1⟩

/-- The Mongo filter `{"videoId": vid, "stockTicker": tick}` used by the
upsert. -/
def matchesKey (vid tick : String) (r : VideoRec) : Bool :=
  r.videoId == vid && r.stockTicker == tick

/-- Number of records in the videos collection at a given
(videoId, stockTicker) key. -/
def keyCount (store : List VideoRec) (vid tick : String) : Nat :=
  (store.filter (matchesKey vid tick)).length

/-- At most one record per (videoId, stockTicker) key. -/
def NoDupKeys (store : List VideoRec) : Prop :=
  ∀ vid tick, keyCount store vid tick ≤ 1

/-! ## Helper lemmas about the rounding model -/

theorem floor_le_roundHalfEven (q : ℚ) : ⌊q⌋ ≤ roundHalfEven q := by
  unfold roundHalfEven
  split
  · exact le_refl _
  · split
    · omega
    · split <;> omega

theorem roundHalfEven_le_floor_add_one (q : ℚ) :
    roundHalfEven q ≤ ⌊q⌋ + 1 := by
  unfold roundHalfEven
  split
  · omega
  · split
    · omega
    · split <;> omega

theorem roundHalfEven_nonneg (q : ℚ) (h : 0 ≤ q) : 0 ≤ roundHalfEven q := by
  have hf : 0 ≤ ⌊q⌋ := Int.le_floor.mpr (by exact_mod_cast h)
  have := floor_le_roundHalfEven q
  omega

theorem roundHalfEven_le_intCast (q : ℚ) (n : ℤ) (h : q ≤ (n : ℚ)) :
    roundHalfEven q ≤ n := by
  have hf : ⌊q⌋ ≤ n := by
    calc ⌊q⌋ ≤ ⌊(n : ℚ)⌋ := Int.floor_le_floor h
    _ = n := Int.floor_intCast n
  rcases lt_or_eq_of_le hf with hlt | heq
  · have := roundHalfEven_le_floor_add_one q
    omega
  · have hfrac : q - (⌊q⌋ : ℚ) ≤ 0 := by
      rw [heq]
      exact sub_nonpos.mpr h
    unfold roundHalfEven
    have hcase : q - (⌊q⌋ : ℚ) < 1/2 := lt_of_le_of_lt hfrac (by norm_num)
    rw [if_pos hcase]
    exact hf

theorem roundHalfEven_intCast (n : ℤ) : roundHalfEven (n : ℚ) = n := by
  unfold roundHalfEven
  rw [Int.floor_intCast]
  rw [if_pos (by norm_num)]

theorem round2_nonneg (q : ℚ) (h : 0 ≤ q) : 0 ≤ round2 q := by
  unfold round2
  have h1 : (0 : ℤ) ≤ roundHalfEven (q * 100) :=
    roundHalfEven_nonneg _ (by positivity)
  have h2 : (0 : ℚ) ≤ (roundHalfEven (q * 100) : ℚ) := by exact_mod_cast h1
  positivity

theorem round2_le_one (q : ℚ) (h : q ≤ 1) : round2 q ≤ 1 := by
  unfold round2
  have h1 : roundHalfEven (q * 100) ≤ (100 : ℤ) := by
    apply roundHalfEven_le_intCast
    push_cast
    nlinarith
  have h2 : (roundHalfEven (q * 100) : ℚ) ≤ 100 := by exact_mod_cast h1
  linarith

theorem round2_eq_of_mul_eq_intCast (q : ℚ) (n : ℤ) (h : q * 100 = (n : ℚ)) :
    round2 q = q := by
  unfold round2
  rw [h, roundHalfEven_intCast]
  rw [← h]
  field_simp

/-! ## Helper lemmas about the score components -/

theorem view_score_bounds (views : Int) (h : 0 ≤ views) :
    0 ≤ view_score views ∧ view_score views ≤ 1/2 := by
  unfold view_score
  constructor
  · apply mul_nonneg _ (by norm_num)
    apply le_min _ (by norm_num)
    positivity
  · have h1 : min ((views : ℚ) / 100000) 1 ≤ 1 := min_le_right _ _
    linarith

theorem engagement_score_bounds (likes comments : Int)
    (hl : 0 ≤ likes) (hc : 0 ≤ comments) :
    0 ≤ engagement_score likes comments ∧
    engagement_score likes comments ≤ 3/10 := by
  unfold engagement_score
  constructor
  · apply mul_nonneg _ (by norm_num)
    apply le_min _ (by norm_num)
    have hl' : (0 : ℚ) ≤ (likes : ℚ) := by exact_mod_cast hl
    have hc' : (0 : ℚ) ≤ (comments : ℚ) := by exact_mod_cast hc
    positivity
  · have h1 : min (((likes : ℚ) + (comments : ℚ)) / 10000) 1 ≤ 1 :=
      min_le_right _ _
    linarith

theorem view_score_100000 : view_score 100000 = 1/2 := by
  unfold view_score
  push_cast
  rw [show (100000 : ℚ) / 100000 = 1 by norm_num, min_self]
  norm_num

theorem engagement_score_10000_0 : engagement_score 10000 0 = 3/10 := by
  unfold engagement_score
  push_cast
  rw [show ((10000 : ℚ) + 0) / 10000 = 1 by norm_num, min_self]
  norm_num

/-- Claim C2 (amended): for non-negative view, like and comment counts, the
quality score lies in [0, 1] whenever the publish date is absent, is
unparseable, or does not lie in the future (non-negative age in days). A
future publish date can push the score above 1 (see the counterexample). -/
theorem quality_score_in_unit_interval (views likes comments : Int)
    (pub : PubDate) (hv : 0 ≤ views) (hl : 0 ≤ likes) (hc : 0 ≤ comments)
    (hpast : ∀ d, pub = PubDate.parsed d → 0 ≤ d) :
    0 ≤ calculate_video_quality_score views likes comments pub ∧
    calculate_video_quality_score views likes comments pub ≤ 1 := by
  obtain ⟨hv0, hv1⟩ := view_score_bounds views hv
  obtain ⟨he0, he1⟩ := engagement_score_bounds likes comments hl hc
  cases pub with
  | unparseable => norm_num [calculate_video_quality_score]
  | absent =>
      unfold calculate_video_quality_score
      exact ⟨round2_nonneg _ (by linarith), round2_le_one _ (by linarith)⟩
  | parsed d =>
      have hd : 0 ≤ d := hpast d rfl
      have hd' : (0 : ℚ) ≤ ((d : ℚ) / 365) * (1/5) := by
        have : (0 : ℚ) ≤ (d : ℚ) := by exact_mod_cast hd
        positivity
      have hr0 : (0 : ℚ) ≤ max (1/5 - ((d : ℚ) / 365) * (1/5)) 0 :=
        le_max_right _ _
      have hr1 : max (1/5 - ((d : ℚ) / 365) * (1/5)) 0 ≤ 1/5 := by
        apply max_le _ (by norm_num)
        linarith
      unfold calculate_video_quality_score
      exact ⟨round2_nonneg _ (by linarith), round2_le_one _ (by linarith)⟩

/-- Witness for C2: a concrete non-negative candidate published 10 days ago. -/
theorem quality_score_in_unit_interval_witness :
    (0 : Int) ≤ 100000 ∧ (0 : Int) ≤ 200 ∧ (0 : Int) ≤ 30 ∧
    (∀ d, PubDate.parsed 10 = PubDate.parsed d → 0 ≤ d) ∧
    (0 ≤ calculate_video_quality_score 100000 200 30 (PubDate.parsed 10) ∧
      calculate_video_quality_score 100000 200 30 (PubDate.parsed 10) ≤ 1) :=
  ⟨by decide, by decide, by decide, fun d h => by cases h; decide,
    quality_score_in_unit_interval 100000 200 30 (PubDate.parsed 10)
      (by decide) (by decide) (by decide) (fun d h => by cases h; decide)⟩

/-- Counterexample to C2 as stated: a candidate with maximal view and
engagement components whose publish date lies one year in the future
(days_old = -365) scores 6/5, outside [0, 1]. -/
theorem quality_score_above_one_on_future_date :
    1 < calculate_video_quality_score 100000 10000 0 (PubDate.parsed (-365)) := by
  have harg : view_score 100000 + engagement_score 10000 0
      + max (1/5 - (((-365 : Int) : ℚ) / 365) * (1/5)) 0 = 6/5 := by
    rw [view_score_100000, engagement_score_10000_0]
    rw [show (1/5 : ℚ) - (((-365 : Int) : ℚ) / 365) * (1/5) = 2/5 by push_cast; norm_num]
    rw [show max (2/5 : ℚ) 0 = 2/5 from max_eq_left (by norm_num)]
    norm_num
  show 1 < round2 (view_score 100000 + engagement_score 10000 0
    + max (1/5 - (((-365 : Int) : ℚ) / 365) * (1/5)) 0)
  rw [harg, round2_eq_of_mul_eq_intCast (6/5) 120 (by norm_num)]
  norm_num

/-- Claim C3 (amended): in the stored record built from a response item, a
parse failure on a present publish date zeroes the whole quality score (the
exception handler path), while the recency default 0.2 applies only to an
absent or empty publish date; a parsed date contributes
`max(0.2 - (days_old/365)*0.2, 0)`. -/
theorem quality_score_recency_cases (ticker : String)
    (parse : String → PubDate) (now : Int) (item : ProviderItem) :
    (parse item.snippet.publishedAt = PubDate.unparseable →
      (mkVideo ticker parse now item).qualityScore = 0) ∧
    (∀ d, parse item.snippet.publishedAt = PubDate.parsed d →
      (mkVideo ticker parse now item).qualityScore =
        round2 (view_score item.stats.viewCount
          + engagement_score item.stats.likeCount item.stats.commentCount
          + max (1/5 - ((d : ℚ) / 365) * (1/5)) 0)) ∧
    (parse item.snippet.publishedAt = PubDate.absent →
      (mkVideo ticker parse now item).qualityScore =
        round2 (view_score item.stats.viewCount
          + engagement_score item.stats.likeCount item.stats.commentCount
          + 1/5)) := by
  refine ⟨fun h => ?_, fun d h => ?_, fun h => ?_⟩ <;>
    simp [mkVideo, calculate_video_quality_score, h]

/-- Witness for C3: a concrete item whose date parses with age 3 days. -/
theorem quality_score_recency_cases_witness :
    ((fun _ => PubDate.parsed 3) "p" : PubDate) = PubDate.parsed 3 ∧
    (mkVideo "AAPL" (fun _ => PubDate.parsed 3) 0
        ⟨"v1", ⟨"t", "de", "u", "p", some "c"⟩, ⟨7, 8, 9⟩⟩).qualityScore =
      round2 (view_score 7 + engagement_score 8 9
        + max (1/5 - (((3 : Int) : ℚ) / 365) * (1/5)) 0) :=
  ⟨rfl, (quality_score_recency_cases "AAPL" (fun _ => PubDate.parsed 3) 0
      ⟨"v1", ⟨"t", "de", "u", "p", some "c"⟩, ⟨7, 8, 9⟩⟩).2.1 3 rfl⟩

/-- Counterexample to C3 as stated: for a candidate with a present but
unparseable publish date, the source returns 0.0, not the value
round(viewScore + engagementScore + 0.2, 2), which here is 1. -/
theorem unparseable_date_zeroes_score :
    calculate_video_quality_score 100000 10000 0 PubDate.unparseable ≠
      round2 (view_score 100000 + engagement_score 10000 0 + 1/5) := by
  have harg : view_score 100000 + engagement_score 10000 0 + 1/5 = 1 := by
    rw [view_score_100000, engagement_score_10000_0]
    norm_num
  rw [harg, round2_eq_of_mul_eq_intCast 1 100 (by norm_num)]
  show (0 : ℚ) ≠ 1
  norm_num

/-- Claim C6: trust-tier classification is a function of the channel title
alone, priority-ordered with first match winning; any title containing both
"official" and "bloomberg" (case-insensitively) lands in the first branch
and classifies as Official Company. -/
theorem trust_tier_official_beats_bloomberg (title : String)
    (h1 : strContains (pyLower title) "official" = true)
    (h2 : strContains (pyLower title) "bloomberg" = true) :
    determine_trust_tier title = "Official Company" := by
  unfold determine_trust_tier
  simp only [List.any_cons, h1, Bool.true_or, if_pos]

/-- Witness for C6: the concrete title "Bloomberg Official". -/
theorem trust_tier_official_beats_bloomberg_witness :
    strContains (pyLower "Bloomberg Official") "official" = true ∧
    strContains (pyLower "Bloomberg Official") "bloomberg" = true ∧
    determine_trust_tier "Bloomberg Official" = "Official Company" :=
  ⟨by decide, by decide,
    trust_tier_official_beats_bloomberg "Bloomberg Official"
      (by decide) (by decide)⟩

/-- Claim C4 (code behaviour at the failing input): for a ticker absent from
the channel registry, `fetch_and_cache_youtube_videos` raises
HTTPException(404) at line 251, but the blanket `except Exception` handler of
lines 318-320 catches it (there is no `except HTTPException: raise` clause in
this function) and re-raises HTTPException(500): the caller observes a 500,
not the NotFound the spec states. No provider call is made and the store is
untouched. -/
theorem fetch_unknown_ticker_surfaces_500 (ytSearch : String → Nat → List String)
    (ytVideos : List String → List ProviderItem) (parse : String → PubDate) :
    fetch_and_cache_youtube_videos [] ytSearch ytVideos parse 0 [] "ZZZZ" 20 =
      ⟨.error (.httpException 500), [], 0⟩ := rfl

/-- Claim C9: a live cache entry for the uppercased ticker makes
`get_stock_data` return exactly the cached value, with no Finnhub call and no
cache change; the outcome is identical under any two quote providers. -/
theorem stock_cache_hit_ignores_provider (cache : List CacheEntry) (now : Int)
    (ticker : String) (d : StockData)
    (hhit : cache_get cache now (pyUpper ticker) = some d) :
    ∀ quoteOf quoteOf' : String → Option Quote,
      get_stock_data quoteOf cache now ticker =
        ⟨.ok d, cache, 0⟩ ∧
      get_stock_data quoteOf cache now ticker =
        get_stock_data quoteOf' cache now ticker := by
  intro quoteOf quoteOf'
  unfold get_stock_data
  rw [hhit]
  exact ⟨rfl, rfl⟩

/-- Witness for C9: a cache holding one live AAPL entry at time 0. -/
theorem stock_cache_hit_ignores_provider_witness :
    cache_get [⟨"AAPL", ⟨"AAPL", 5, 1, 1, 6, 4, 5, 4, 0⟩, 0⟩] 10
        (pyUpper "aapl") = some ⟨"AAPL", 5, 1, 1, 6, 4, 5, 4, 0⟩ ∧
    get_stock_data (fun _ => none)
        [⟨"AAPL", ⟨"AAPL", 5, 1, 1, 6, 4, 5, 4, 0⟩, 0⟩] 10 "aapl" =
      ⟨.ok ⟨"AAPL", 5, 1, 1, 6, 4, 5, 4, 0⟩,
        [⟨"AAPL", ⟨"AAPL", 5, 1, 1, 6, 4, 5, 4, 0⟩, 0⟩], 0⟩ ∧
    get_stock_data (fun _ => none)
        [⟨"AAPL", ⟨"AAPL", 5, 1, 1, 6, 4, 5, 4, 0⟩, 0⟩] 10 "aapl" =
      get_stock_data (fun _ => some ⟨9, 9, 9, 9, 9, 9, 9⟩)
        [⟨"AAPL", ⟨"AAPL", 5, 1, 1, 6, 4, 5, 4, 0⟩, 0⟩] 10 "aapl" :=
  ⟨rfl,
    (stock_cache_hit_ignores_provider
      [⟨"AAPL", ⟨"AAPL", 5, 1, 1, 6, 4, 5, 4, 0⟩, 0⟩] 10 "aapl"
      ⟨"AAPL", 5, 1, 1, 6, 4, 5, 4, 0⟩ rfl (fun _ => none)
      (fun _ => some ⟨9, 9, 9, 9, 9, 9, 9⟩)).1,
    (stock_cache_hit_ignores_provider
      [⟨"AAPL", ⟨"AAPL", 5, 1, 1, 6, 4, 5, 4, 0⟩, 0⟩] 10 "aapl"
      ⟨"AAPL", 5, 1, 1, 6, 4, 5, 4, 0⟩ rfl (fun _ => none)
      (fun _ => some ⟨9, 9, 9, 9, 9, 9, 9⟩)).2⟩

theorem cache_get_none_of_le (cache : List CacheEntry) (now later : Int)
    (k : String) (h : cache_get cache now k = none) (hle : now ≤ later) :
    cache_get cache later k = none := by
  unfold cache_get at *
  rw [Option.map_eq_none'] at *
  rw [List.find?_eq_none] at *
  intro e he
  have := h e he
  simp only [Bool.and_eq_true, beq_iff_eq, decide_eq_true_eq, not_and] at *
  intro hk hlt
  exact this hk (by omega)

/-- Claim C8: on a cache miss where the provider yields a falsy quote or a
zero current price, `get_stock_data` fails with NotFound (404) and the cache
is unchanged, so any later call with the same provider issues a Finnhub call
again (the failure is not cached). -/
theorem stock_miss_bad_quote_not_cached (quoteOf : String → Option Quote)
    (cache : List CacheEntry) (now : Int) (ticker : String)
    (hmiss : cache_get cache now (pyUpper ticker) = none)
    (hbad : quoteOf (pyUpper ticker) = none ∨
      ∃ q, quoteOf (pyUpper ticker) = some q ∧ q.c = 0) :
    get_stock_data quoteOf cache now ticker =
      ⟨.error (.httpException 404), cache, 1⟩ ∧
    ∀ later, now ≤ later →
      (get_stock_data quoteOf cache later ticker).providerCalls = 1 := by
  constructor
  · unfold get_stock_data
    rw [hmiss]
    rcases hbad with hq | ⟨q, hq, hc⟩
    · rw [hq]
    · rw [hq]
      simp only [if_pos hc]
  · intro later hle
    have hmiss' := cache_get_none_of_le cache now later (pyUpper ticker)
      hmiss hle
    unfold get_stock_data
    rw [hmiss']
    cases hq : quoteOf (pyUpper ticker) with
    | none => rfl
    | some q => by_cases hc : q.c = 0 <;> simp [hc]

/-- Witness for C8: an empty cache and a provider that knows no tickers. -/
theorem stock_miss_bad_quote_not_cached_witness :
    cache_get [] 0 (pyUpper "aapl") = none ∧
    ((fun _ => none : String → Option Quote) (pyUpper "aapl") = none ∨
      ∃ q, (fun _ => none : String → Option Quote) (pyUpper "aapl") = some q ∧
        q.c = 0) ∧
    (get_stock_data (fun _ => none) [] 0 "aapl" =
      ⟨.error (.httpException 404), [], 1⟩ ∧
    ∀ later, (0 : Int) ≤ later →
      (get_stock_data (fun _ => none) [] later "aapl").providerCalls = 1) :=
  ⟨rfl, Or.inl rfl,
    stock_miss_bad_quote_not_cached (fun _ => none) [] 0 "aapl" rfl
      (Or.inl rfl)⟩

/-! ## Helper lemmas about listing, sorting, pagination -/

theorem insertVid_length (le : VideoRec → VideoRec → Bool) (v : VideoRec)
    (l : List VideoRec) : (insertVid le v l).length = l.length + 1 := by
  induction l with
  | nil => rfl
  | cons w ws ih =>
      unfold insertVid
      split
      · simp [ih]
      · simp

theorem sortStable_length (le : VideoRec → VideoRec → Bool)
    (l : List VideoRec) : (sortStable le l).length = l.length := by
  induction l with
  | nil => rfl
  | cons w ws ih =>
      show (insertVid le w (sortStable le ws)).length = ws.length + 1
      rw [insertVid_length, ih]

theorem sort_videos_length (sort_by : String) (l : List VideoRec) :
    (sort_videos sort_by l).length = l.length := by
  unfold sort_videos
  split
  · exact sortStable_length _ _
  · split
    · exact sortStable_length _ _
    · split
      · exact sortStable_length _ _
      · rfl

theorem fresh_query_hits_le_1000 (store : List VideoRec) (tickerU : String)
    (now : Int) (trust_tier : Option String) :
    (fresh_query_hits store tickerU now trust_tier).length ≤ 1000 := by
  unfold fresh_query_hits
  rw [List.length_take]
  exact min_le_left _ _

theorem fresh_query_hits_lt_5_iff (store : List VideoRec) (tickerU : String)
    (now : Int) (trust_tier : Option String) :
    ((fresh_query_hits store tickerU now trust_tier).length < 5 ↔
      (store.filter (video_query tickerU now trust_tier)).length < 5) := by
  unfold fresh_query_hits
  rw [List.length_take]
  omega

theorem ceil_div_formula (t p : ℕ) (hp : 0 < p) :
    (((t + p - 1) / p : ℕ) : ℤ) = ⌈(t : ℚ) / (p : ℚ)⌉ := by
  have hp' : (0 : ℚ) < (p : ℚ) := by exact_mod_cast hp
  have hmod := Nat.mod_add_div (t + p - 1) p
  have hlt : (t + p - 1) % p < p := Nat.mod_lt _ hp
  set q := (t + p - 1) / p with hqdef
  have h1 : t ≤ p * q := by omega
  have h2 : p * q < t + p := by omega
  have h1' : (t : ℚ) ≤ (p : ℚ) * (q : ℚ) := by exact_mod_cast h1
  have h2' : (p : ℚ) * (q : ℚ) < (t : ℚ) + (p : ℚ) := by exact_mod_cast h2
  symm
  rw [Int.ceil_eq_iff]
  constructor
  · push_cast
    rw [lt_div_iff hp']
    nlinarith
  · push_cast
    rw [div_le_iff hp']
    nlinarith

theorem paginate_pagination (l : List VideoRec) (page page_size : Nat)
    (hps : 0 < page_size) :
    ((paginate l page page_size).total_pages : ℤ) =
      ⌈((paginate l page page_size).total : ℚ) / (page_size : ℚ)⌉ ∧
    ((paginate l page page_size).total ≤ (page - 1) * page_size →
      (paginate l page page_size).items = []) := by
  constructor
  · exact ceil_div_formula l.length page_size hps
  · intro h
    show (l.drop ((page - 1) * page_size)).take page_size = []
    rw [List.drop_eq_nil_of_le h]
    exact List.take_nil

/-- Inversion: whenever `get_channel_videos` answers 200, the response is the
pagination of the sorted result of a freshness query loaded with
`to_list(1000)`. -/
theorem get_channel_videos_ok_shape (registry : List StockChannel)
    (ytSearch : String → Nat → List String)
    (ytVideos : List String → List ProviderItem)
    (parse : String → PubDate) (now : Int) (store : List VideoRec)
    (ticker : String) (page page_size : Nat) (trust_tier : Option String)
    (sort_by : String) (resp : PagedResult)
    (hok : (get_channel_videos registry ytSearch ytVideos parse now store
      ticker page page_size trust_tier sort_by).result = Except.ok resp) :
    ∃ l : List VideoRec, l.length ≤ 1000 ∧
      resp = paginate (sort_videos sort_by l) page page_size := by
  unfold get_channel_videos at hok
  split at hok
  · split at hok
    · exact absurd hok (by simp)
    · injection hok with h
      exact ⟨fresh_query_hits (fetch_and_cache_youtube_videos registry
          ytSearch ytVideos parse now store (pyUpper ticker) 20).store
          (pyUpper ticker) now trust_tier,
        fresh_query_hits_le_1000 _ _ _ _, h.symm⟩
  · injection hok with h
    exact ⟨fresh_query_hits store (pyUpper ticker) now trust_tier,
      fresh_query_hits_le_1000 _ _ _ _, h.symm⟩

/-- Claim C1 (amended): the refetch fires exactly when the freshness query
WITH the trust-tier condition included (the source adds the trustTier field
to the query dict before counting) returns fewer than 5 documents; the
1000-document load cap cannot mask the threshold. -/
theorem refetch_threshold_counts_filtered (registry : List StockChannel)
    (ytSearch : String → Nat → List String)
    (ytVideos : List String → List ProviderItem)
    (parse : String → PubDate) (now : Int) (store : List VideoRec)
    (ticker : String) (page page_size : Nat) (trust_tier : Option String)
    (sort_by : String) :
    ((get_channel_videos registry ytSearch ytVideos parse now store ticker
        page page_size trust_tier sort_by).fetchTriggered = true ↔
      (store.filter (video_query (pyUpper ticker) now trust_tier)).length
        < 5) := by
  constructor
  · intro htrig
    by_contra hge
    have hcond : ¬ (fresh_query_hits store (pyUpper ticker) now
        trust_tier).length < 5 := by
      rw [fresh_query_hits_lt_5_iff]
      exact hge
    unfold get_channel_videos at htrig
    rw [if_neg hcond] at htrig
    exact absurd htrig (by simp)
  · intro hlt
    have hcond : (fresh_query_hits store (pyUpper ticker) now
        trust_tier).length < 5 := by
      rw [fresh_query_hits_lt_5_iff]
      exact hlt
    unfold get_channel_videos
    rw [if_pos hcond]
    split <;> rfl

/-- Counterexample to C1 as stated: six fresh Community videos for AAPL give
an unfiltered fresh count of 6 (not fewer than 5), yet with the trust-tier
filter "Official Company" the source still triggers the refetch, because its
threshold check counts the filtered query. -/
theorem refetch_fires_despite_enough_unfiltered :
    5 ≤ (([⟨"v1", "t", "d", "u", "YouTube", "Community", "AAPL", "p", "c", 0, 0, 10000⟩,
          ⟨"v2", "t", "d", "u", "YouTube", "Community", "AAPL", "p", "c", 0, 0, 10000⟩,
          ⟨"v3", "t", "d", "u", "YouTube", "Community", "AAPL", "p", "c", 0, 0, 10000⟩,
          ⟨"v4", "t", "d", "u", "YouTube", "Community", "AAPL", "p", "c", 0, 0, 10000⟩,
          ⟨"v5", "t", "d", "u", "YouTube", "Community", "AAPL", "p", "c", 0, 0, 10000⟩,
          ⟨"v6", "t", "d", "u", "YouTube", "Community", "AAPL", "p", "c", 0, 0, 10000⟩] :
        List VideoRec).filter (video_query (pyUpper "AAPL") 10000 none)).length ∧
    (get_channel_videos [] (fun _ _ => []) (fun _ => [])
        (fun _ => PubDate.absent) 10000
        [⟨"v1", "t", "d", "u", "YouTube", "Community", "AAPL", "p", "c", 0, 0, 10000⟩,
         ⟨"v2", "t", "d", "u", "YouTube", "Community", "AAPL", "p", "c", 0, 0, 10000⟩,
         ⟨"v3", "t", "d", "u", "YouTube", "Community", "AAPL", "p", "c", 0, 0, 10000⟩,
         ⟨"v4", "t", "d", "u", "YouTube", "Community", "AAPL", "p", "c", 0, 0, 10000⟩,
         ⟨"v5", "t", "d", "u", "YouTube", "Community", "AAPL", "p", "c", 0, 0, 10000⟩,
         ⟨"v6", "t", "d", "u", "YouTube", "Community", "AAPL", "p", "c", 0, 0, 10000⟩]
        "AAPL" 1 10 (some "Official Company") "quality").fetchTriggered
      = true :=
  ⟨by decide, by decide⟩

/-- Claim C5: on a 200 answer, total_pages is the ceiling of total over
page_size, and a page starting at or beyond total yields an empty items
slice (with no error), total being the post-filter, pre-pagination count. -/
theorem list_videos_pagination (registry : List StockChannel)
    (ytSearch : String → Nat → List String)
    (ytVideos : List String → List ProviderItem)
    (parse : String → PubDate) (now : Int) (store : List VideoRec)
    (ticker : String) (page page_size : Nat) (trust_tier : Option String)
    (sort_by : String) (resp : PagedResult)
    (hpage : 1 ≤ page) (hps : 1 ≤ page_size) (hps50 : page_size ≤ 50)
    (hok : (get_channel_videos registry ytSearch ytVideos parse now store
      ticker page page_size trust_tier sort_by).result = Except.ok resp) :
    (resp.total_pages : ℤ) = ⌈(resp.total : ℚ) / (page_size : ℚ)⌉ ∧
    (resp.total ≤ (page - 1) * page_size → resp.items = []) := by
  obtain ⟨l, hlen, rfl⟩ := get_channel_videos_ok_shape registry ytSearch
    ytVideos parse now store ticker page page_size trust_tier sort_by resp hok
  exact paginate_pagination (sort_videos sort_by l) page page_size hps

/-- Witness for C5: an empty store for a registered ticker, page 3 of size
10; the refetch returns nothing and the response is an empty page with
total 0 and total_pages 0. -/
theorem list_videos_pagination_witness :
    1 ≤ 3 ∧ 1 ≤ 10 ∧ 10 ≤ 50 ∧
    (get_channel_videos [⟨"AAPL", "Apple Inc."⟩] (fun _ _ => [])
        (fun _ => []) (fun _ => PubDate.absent) 0 [] "AAPL" 3 10 none
        "quality").result = Except.ok ⟨[], 0, 3, 10, 0⟩ ∧
    (((⟨[], 0, 3, 10, 0⟩ : PagedResult).total_pages : ℤ) =
        ⌈((⟨[], 0, 3, 10, 0⟩ : PagedResult).total : ℚ) / ((10 : ℕ) : ℚ)⌉ ∧
      ((⟨[], 0, 3, 10, 0⟩ : PagedResult).total ≤ (3 - 1) * 10 →
        (⟨[], 0, 3, 10, 0⟩ : PagedResult).items = [])) :=
  ⟨by decide, by decide, by decide, by rfl,
    list_videos_pagination [⟨"AAPL", "Apple Inc."⟩] (fun _ _ => [])
      (fun _ => []) (fun _ => PubDate.absent) 0 [] "AAPL" 3 10 none "quality"
      ⟨[], 0, 3, 10, 0⟩ (by decide) (by decide) (by decide) (by rfl)⟩

/-- Claim C10: the freshness query is loaded with `to_list(1000)`, so on a
200 answer the reported total never exceeds 1000 — and with a positive page
size neither does total_pages — no matter how many fresh documents match. -/
theorem list_videos_total_capped_at_1000 (registry : List StockChannel)
    (ytSearch : String → Nat → List String)
    (ytVideos : List String → List ProviderItem)
    (parse : String → PubDate) (now : Int) (store : List VideoRec)
    (ticker : String) (page page_size : Nat) (trust_tier : Option String)
    (sort_by : String) (resp : PagedResult)
    (hps : 1 ≤ page_size)
    (hok : (get_channel_videos registry ytSearch ytVideos parse now store
      ticker page page_size trust_tier sort_by).result = Except.ok resp) :
    resp.total ≤ 1000 ∧ resp.total_pages ≤ 1000 := by
  obtain ⟨l, hlen, rfl⟩ := get_channel_videos_ok_shape registry ytSearch
    ytVideos parse now store ticker page page_size trust_tier sort_by resp hok
  have htot : (paginate (sort_videos sort_by l) page page_size).total ≤ 1000 := by
    show (sort_videos sort_by l).length ≤ 1000
    rw [sort_videos_length]
    exact hlen
  refine ⟨htot, ?_⟩
  show ((sort_videos sort_by l).length + page_size - 1) / page_size ≤ 1000
  rw [sort_videos_length] at *
  have hdiv : (l.length + page_size - 1) / page_size < 1001 := by
    rw [Nat.div_lt_iff_lt_mul (by omega)]
    omega
  omega

/-- Witness for C10: a concrete 200 answer whose total is 0. -/
theorem list_videos_total_capped_at_1000_witness :
    1 ≤ 10 ∧
    (get_channel_videos [⟨"AAPL", "Apple Inc."⟩] (fun _ _ => [])
        (fun _ => []) (fun _ => PubDate.absent) 0 [] "AAPL" 1 10 none
        "quality").result = Except.ok ⟨[], 0, 1, 10, 0⟩ ∧
    ((⟨[], 0, 1, 10, 0⟩ : PagedResult).total ≤ 1000 ∧
      (⟨[], 0, 1, 10, 0⟩ : PagedResult).total_pages ≤ 1000) :=
  ⟨by decide, by rfl,
    list_videos_total_capped_at_1000 [⟨"AAPL", "Apple Inc."⟩] (fun _ _ => [])
      (fun _ => []) (fun _ => PubDate.absent) 0 [] "AAPL" 1 10 none "quality"
      ⟨[], 0, 1, 10, 0⟩ (by decide) (by rfl)⟩

/-! ## Helper lemmas about the upsert -/

theorem not_true_of_eq_false {b : Bool} (h : b = false) : ¬ b = true := by
  rw [h]
  exact Bool.false_ne_true

theorem matchesKey_self (v : VideoRec) :
    matchesKey v.videoId v.stockTicker v = true := by
  simp [matchesKey]

theorem matchesKey_true_iff (vid tick : String) (v : VideoRec) :
    matchesKey vid tick v = true ↔ v.videoId = vid ∧ v.stockTicker = tick := by
  simp [matchesKey]

theorem matchesKey_false_of_ne (vid tick : String) (v : VideoRec)
    (hne : ¬(v.videoId = vid ∧ v.stockTicker = tick)) :
    matchesKey vid tick v = false := by
  by_cases hb : matchesKey vid tick v = true
  · exact absurd ((matchesKey_true_iff vid tick v).mp hb) hne
  · exact Bool.not_eq_true _ ▸ hb

theorem update_one_cond_iff (r v : VideoRec) :
    (r.videoId == v.videoId && r.stockTicker == v.stockTicker) = true ↔
      r.videoId = v.videoId ∧ r.stockTicker = v.stockTicker := by
  simp

theorem find?_update_one_self (s : List VideoRec) (v : VideoRec) :
    (update_one s v).find? (matchesKey v.videoId v.stockTicker) = some v := by
  induction s with
  | nil =>
      show List.find? _ [v] = some v
      exact List.find?_cons_of_pos _ (matchesKey_self v)
  | cons r rs ih =>
      unfold update_one
      split
      · exact List.find?_cons_of_pos _ (matchesKey_self v)
      case isFalse hcond =>
        have hpr : matchesKey v.videoId v.stockTicker r = false := by
          apply matchesKey_false_of_ne
          intro hr
          exact hcond ((update_one_cond_iff r v).mpr ⟨hr.1, hr.2⟩)
        rw [List.find?_cons_of_neg _ (not_true_of_eq_false hpr)]
        exact ih

theorem find?_update_one_other (s : List VideoRec) (v : VideoRec)
    (vid tick : String) (hne : ¬(v.videoId = vid ∧ v.stockTicker = tick)) :
    (update_one s v).find? (matchesKey vid tick) =
      s.find? (matchesKey vid tick) := by
  have hpv : ¬ matchesKey vid tick v = true :=
    not_true_of_eq_false (matchesKey_false_of_ne _ _ _ hne)
  induction s with
  | nil =>
      show List.find? _ [v] = List.find? _ []
      rw [List.find?_cons_of_neg _ hpv]
  | cons r rs ih =>
      unfold update_one
      split
      case isTrue hcond =>
        have hkey := (update_one_cond_iff r v).mp hcond
        have hpr : ¬ matchesKey vid tick r = true := by
          apply not_true_of_eq_false
          apply matchesKey_false_of_ne
          intro hr
          exact hne ⟨hkey.1 ▸ hr.1, hkey.2 ▸ hr.2⟩
        rw [List.find?_cons_of_neg _ hpv, List.find?_cons_of_neg _ hpr]
      case isFalse hcond =>
        cases hpr : matchesKey vid tick r with
        | true =>
            rw [List.find?_cons_of_pos _ hpr, List.find?_cons_of_pos _ hpr]
        | false =>
            rw [List.find?_cons_of_neg _ (not_true_of_eq_false hpr),
              List.find?_cons_of_neg _ (not_true_of_eq_false hpr)]
            exact ih

theorem keyCount_update_one_other (s : List VideoRec) (v : VideoRec)
    (vid tick : String) (hne : ¬(v.videoId = vid ∧ v.stockTicker = tick)) :
    keyCount (update_one s v) vid tick = keyCount s vid tick := by
  have hpv : matchesKey vid tick v = false := matchesKey_false_of_ne _ _ _ hne
  induction s with
  | nil =>
      show (List.filter _ [v]).length = (List.filter _ []).length
      rw [List.filter_cons, if_neg (not_true_of_eq_false hpv)]
  | cons r rs ih =>
      unfold update_one
      split
      case isTrue hcond =>
        have hkey := (update_one_cond_iff r v).mp hcond
        have hpr : matchesKey vid tick r = false := by
          apply matchesKey_false_of_ne
          intro hr
          exact hne ⟨hkey.1 ▸ hr.1, hkey.2 ▸ hr.2⟩
        show (List.filter _ (v :: rs)).length = (List.filter _ (r :: rs)).length
        rw [List.filter_cons, List.filter_cons,
          if_neg (not_true_of_eq_false hpv), if_neg (not_true_of_eq_false hpr)]
      case isFalse hcond =>
        show (List.filter _ (r :: update_one rs v)).length
          = (List.filter _ (r :: rs)).length
        rw [List.filter_cons, List.filter_cons]
        cases hpr : matchesKey vid tick r with
        | true =>
            rw [if_pos rfl, if_pos rfl]
            simp only [List.length_cons]
            exact congrArg (fun n => n + 1) ih
        | false =>
            rw [if_neg (not_true_of_eq_false rfl),
              if_neg (not_true_of_eq_false rfl)]
            exact ih

theorem keyCount_update_one_self (s : List VideoRec) (v : VideoRec) :
    keyCount (update_one s v) v.videoId v.stockTicker =
      max (keyCount s v.videoId v.stockTicker) 1 := by
  induction s with
  | nil =>
      show (List.filter _ [v]).length = max (List.filter _ []).length 1
      rw [List.filter_cons, if_pos (matchesKey_self v)]
      rfl
  | cons r rs ih =>
      unfold update_one
      split
      case isTrue hcond =>
        have hkey := (update_one_cond_iff r v).mp hcond
        have hpr : matchesKey v.videoId v.stockTicker r = true :=
          (matchesKey_true_iff _ _ r).mpr ⟨hkey.1, hkey.2⟩
        show (List.filter _ (v :: rs)).length
          = max (List.filter _ (r :: rs)).length 1
        rw [List.filter_cons, List.filter_cons,
          if_pos (matchesKey_self v), if_pos hpr]
        simp only [List.length_cons]
        omega
      case isFalse hcond =>
        have hpr : matchesKey v.videoId v.stockTicker r = false := by
          apply matchesKey_false_of_ne
          intro hr
          exact hcond ((update_one_cond_iff r v).mpr ⟨hr.1, hr.2⟩)
        show (List.filter _ (r :: update_one rs v)).length
          = max (List.filter _ (r :: rs)).length 1
        rw [List.filter_cons, List.filter_cons,
          if_neg (not_true_of_eq_false hpr), if_neg (not_true_of_eq_false hpr)]
        exact ih

theorem NoDupKeys_update_one (s : List VideoRec) (v : VideoRec)
    (h : NoDupKeys s) : NoDupKeys (update_one s v) := by
  intro vid tick
  by_cases hk : v.videoId = vid ∧ v.stockTicker = tick
  · obtain ⟨h1, h2⟩ := hk
    subst h1
    subst h2
    rw [keyCount_update_one_self]
    have := h v.videoId v.stockTicker
    omega
  · rw [keyCount_update_one_other s v vid tick hk]
    exact h vid tick

theorem NoDupKeys_foldl_update_one (vs : List VideoRec) :
    ∀ s : List VideoRec, NoDupKeys s → NoDupKeys (vs.foldl update_one s) := by
  induction vs with
  | nil => exact fun s h => h
  | cons w ws ih => exact fun s h => ih _ (NoDupKeys_update_one s w h)

theorem find?_foldl_update_one_other (vs : List VideoRec) :
    ∀ (s : List VideoRec) (vid tick : String),
    (∀ w ∈ vs, ¬(w.videoId = vid ∧ w.stockTicker = tick)) →
    (vs.foldl update_one s).find? (matchesKey vid tick) =
      s.find? (matchesKey vid tick) := by
  induction vs with
  | nil => exact fun s vid tick _ => rfl
  | cons w ws ih =>
      intro s vid tick h
      show (ws.foldl update_one (update_one s w)).find? _ = _
      rw [ih _ vid tick (fun u hu => h u (List.mem_cons_of_mem w hu))]
      exact find?_update_one_other s w vid tick (h w (List.mem_cons_self w ws))

theorem find?_foldl_update_one_self (vs : List VideoRec) :
    ∀ (s : List VideoRec) (v : VideoRec), v ∈ vs →
    (vs.map (fun w => (w.videoId, w.stockTicker))).Nodup →
    (vs.foldl update_one s).find? (matchesKey v.videoId v.stockTicker)
      = some v := by
  induction vs with
  | nil => intro s v hv _; cases hv
  | cons w ws ih =>
      intro s v hv hnd
      rw [List.map_cons, List.nodup_cons] at hnd
      obtain ⟨hw, hnd'⟩ := hnd
      rcases List.mem_cons.mp hv with rfl | hv'
      · show (ws.foldl update_one (update_one s v)).find? _ = some v
        rw [find?_foldl_update_one_other ws (update_one s v) v.videoId
          v.stockTicker ?_]
        · exact find?_update_one_self s v
        · intro u hu hcontra
          exact hw (List.mem_map.mpr ⟨u, hu, by rw [hcontra.1, hcontra.2]⟩)
      · exact ih _ v hv' hnd'

theorem keyCount_pos_of_find? (s : List VideoRec) (vid tick : String)
    (r : VideoRec) (h : s.find? (matchesKey vid tick) = some r) :
    1 ≤ keyCount s vid tick := by
  have hmem : r ∈ s := List.mem_of_find?_eq_some h
  have hp : matchesKey vid tick r = true := List.find?_some h
  have hmf : r ∈ s.filter (matchesKey vid tick) :=
    List.mem_filter.mpr ⟨hmem, hp⟩
  show 0 < (s.filter (matchesKey vid tick)).length
  exact List.length_pos.mpr (List.ne_nil_of_mem hmf)

/-- On a registered ticker, the store after a fetch is the in-order upsert of
the built videos into the prior store. -/
theorem fetch_store_eq (registry : List StockChannel)
    (ytSearch : String → Nat → List String)
    (ytVideos : List String → List ProviderItem)
    (parse : String → PubDate) (now : Int) (store : List VideoRec)
    (ticker : String) (m : Nat) (ch : StockChannel)
    (hch : registry.find? (fun c => c.ticker == ticker) = some ch) :
    (fetch_and_cache_youtube_videos registry ytSearch ytVideos parse now store
      ticker m).store =
    ((ytVideos (ytSearch (ch.companyName ++ " " ++ ticker
      ++ " stock analysis news") m)).map (mkVideo ticker parse now)).foldl
      update_one store := by
  simp only [fetch_and_cache_youtube_videos, fetch_body, hch]

/-- Claim C7: fetching twice for a registered ticker against unchanged
provider data (with distinct ids in the batch) leaves, for every fetched
item, exactly one stored record at the (videoId, ticker) key, equal to the
record built at the second call, whose cached_at is the second call instant;
and the per-key uniqueness invariant is preserved. -/
theorem fetch_and_cache_idempotent (registry : List StockChannel)
    (ytSearch : String → Nat → List String)
    (ytVideos : List String → List ProviderItem)
    (parse : String → PubDate) (t1 t2 : Int) (store : List VideoRec)
    (ticker : String) (m : Nat) (ch : StockChannel)
    (hnd : NoDupKeys store)
    (hch : registry.find? (fun c => c.ticker == ticker) = some ch)
    (hids : ((ytVideos (ytSearch (ch.companyName ++ " " ++ ticker
      ++ " stock analysis news") m)).map (fun item => item.id)).Nodup) :
    NoDupKeys (fetch_and_cache_youtube_videos registry ytSearch ytVideos
      parse t2 (fetch_and_cache_youtube_videos registry ytSearch ytVideos
        parse t1 store ticker m).store ticker m).store ∧
    ∀ item ∈ ytVideos (ytSearch (ch.companyName ++ " " ++ ticker
        ++ " stock analysis news") m),
      (fetch_and_cache_youtube_videos registry ytSearch ytVideos parse t2
        (fetch_and_cache_youtube_videos registry ytSearch ytVideos parse t1
          store ticker m).store ticker m).store.find?
        (matchesKey item.id ticker) = some (mkVideo ticker parse t2 item) ∧
      (mkVideo ticker parse t2 item).cached_at = t2 ∧
      keyCount (fetch_and_cache_youtube_videos registry ytSearch ytVideos
        parse t2 (fetch_and_cache_youtube_videos registry ytSearch ytVideos
          parse t1 store ticker m).store ticker m).store item.id ticker
        = 1 := by
  have hs1 := fetch_store_eq registry ytSearch ytVideos parse t1 store
    ticker m ch hch
  have hs2 := fetch_store_eq registry ytSearch ytVideos parse t2
    (fetch_and_cache_youtube_videos registry ytSearch ytVideos parse t1 store
      ticker m).store ticker m ch hch
  rw [hs1] at hs2
  have hnd1 : NoDupKeys (((ytVideos (ytSearch (ch.companyName ++ " "
      ++ ticker ++ " stock analysis news") m)).map
      (mkVideo ticker parse t1)).foldl update_one store) :=
    NoDupKeys_foldl_update_one _ _ hnd
  have hnd2 : NoDupKeys (((ytVideos (ytSearch (ch.companyName ++ " "
      ++ ticker ++ " stock analysis news") m)).map
      (mkVideo ticker parse t2)).foldl update_one
      (((ytVideos (ytSearch (ch.companyName ++ " " ++ ticker
        ++ " stock analysis news") m)).map
        (mkVideo ticker parse t1)).foldl update_one store)) :=
    NoDupKeys_foldl_update_one _ _ hnd1
  have hkeys : (((ytVideos (ytSearch (ch.companyName ++ " " ++ ticker
      ++ " stock analysis news") m)).map (mkVideo ticker parse t2)).map
      (fun w => (w.videoId, w.stockTicker))).Nodup := by
    rw [List.map_map]
    have hcomp : ((fun w : VideoRec => (w.videoId, w.stockTicker)) ∘
        mkVideo ticker parse t2) =
        ((fun s : String => (s, ticker)) ∘
          (fun item : ProviderItem => item.id)) := rfl
    rw [hcomp, ← List.map_map]
    exact hids.map (fun a b hab => congrArg Prod.fst hab)
  rw [hs1, hs2]
  constructor
  · exact hnd2
  · intro item hitem
    have hmem : mkVideo ticker parse t2 item ∈
        (ytVideos (ytSearch (ch.companyName ++ " " ++ ticker
          ++ " stock analysis news") m)).map (mkVideo ticker parse t2) :=
      List.mem_map_of_mem _ hitem
    have hfind := find?_foldl_update_one_self
      ((ytVideos (ytSearch (ch.companyName ++ " " ++ ticker
        ++ " stock analysis news") m)).map (mkVideo ticker parse t2))
      (((ytVideos (ytSearch (ch.companyName ++ " " ++ ticker
        ++ " stock analysis news") m)).map (mkVideo ticker parse t1)).foldl
        update_one store)
      (mkVideo ticker parse t2 item) hmem hkeys
    refine ⟨hfind, rfl, ?_⟩
    have hle := hnd2 item.id ticker
    have hge := keyCount_pos_of_find? _ item.id ticker _ hfind
    omega

/-- Witness for C7: a one-channel registry and a provider returning a single
item; the two calls happen at instants 0 and 5. -/
theorem fetch_and_cache_idempotent_witness :
    NoDupKeys ([] : List VideoRec) ∧
    ([⟨"AAPL", "Apple Inc."⟩] : List StockChannel).find?
      (fun c => c.ticker == "AAPL") = some ⟨"AAPL", "Apple Inc."⟩ ∧
    (([⟨"v1", ⟨"t", "de", "u", "p", some "ch"⟩, ⟨1, 2, 3⟩⟩] :
      List ProviderItem).map (fun item => item.id)).Nodup ∧
    (NoDupKeys (fetch_and_cache_youtube_videos [⟨"AAPL", "Apple Inc."⟩]
        (fun _ _ => ["v1"])
        (fun _ => [⟨"v1", ⟨"t", "de", "u", "p", some "ch"⟩, ⟨1, 2, 3⟩⟩])
        (fun _ => PubDate.absent) 5
        (fetch_and_cache_youtube_videos [⟨"AAPL", "Apple Inc."⟩]
          (fun _ _ => ["v1"])
          (fun _ => [⟨"v1", ⟨"t", "de", "u", "p", some "ch"⟩, ⟨1, 2, 3⟩⟩])
          (fun _ => PubDate.absent) 0 [] "AAPL" 20).store
        "AAPL" 20).store ∧
      ∀ item ∈ ([⟨"v1", ⟨"t", "de", "u", "p", some "ch"⟩, ⟨1, 2, 3⟩⟩] :
          List ProviderItem),
        (fetch_and_cache_youtube_videos [⟨"AAPL", "Apple Inc."⟩]
          (fun _ _ => ["v1"])
          (fun _ => [⟨"v1", ⟨"t", "de", "u", "p", some "ch"⟩, ⟨1, 2, 3⟩⟩])
          (fun _ => PubDate.absent) 5
          (fetch_and_cache_youtube_videos [⟨"AAPL", "Apple Inc."⟩]
            (fun _ _ => ["v1"])
            (fun _ => [⟨"v1", ⟨"t", "de", "u", "p", some "ch"⟩, ⟨1, 2, 3⟩⟩])
            (fun _ => PubDate.absent) 0 [] "AAPL" 20).store
          "AAPL" 20).store.find? (matchesKey item.id "AAPL") =
          some (mkVideo "AAPL" (fun _ => PubDate.absent) 5 item) ∧
        (mkVideo "AAPL" (fun _ => PubDate.absent) 5 item).cached_at = 5 ∧
        keyCount (fetch_and_cache_youtube_videos [⟨"AAPL", "Apple Inc."⟩]
          (fun _ _ => ["v1"])
          (fun _ => [⟨"v1", ⟨"t", "de", "u", "p", some "ch"⟩, ⟨1, 2, 3⟩⟩])
          (fun _ => PubDate.absent) 5
          (fetch_and_cache_youtube_videos [⟨"AAPL", "Apple Inc."⟩]
            (fun _ _ => ["v1"])
            (fun _ => [⟨"v1", ⟨"t", "de", "u", "p", some "ch"⟩, ⟨1, 2, 3⟩⟩])
            (fun _ => PubDate.absent) 0 [] "AAPL" 20).store
          "AAPL" 20).store item.id "AAPL" = 1) :=
  ⟨fun vid tick => by simp [keyCount], rfl, by decide,
    fetch_and_cache_idempotent [⟨"AAPL", "Apple Inc."⟩] (fun _ _ => ["v1"])
      (fun _ => [⟨"v1", ⟨"t", "de", "u", "p", some "ch"⟩, ⟨1, 2, 3⟩⟩])
      (fun _ => PubDate.absent) 0 5 [] "AAPL" 20 ⟨"AAPL", "Apple Inc."⟩
      (fun vid tick => by simp [keyCount]) rfl (by decide)⟩
